import Mathlib

/-!
Verification of the reverse-mode autodiff core of the xchainer/chainerx
slice: the multi-graph backward engine, the gradient checker, the `Take`
and `AddAt` indexing operations, and the backend device registry.

Sources in the repository slice:
  * `src/xchainer/backend.h` — declaration of `Backend::GetDevice`;
  * `src/chainerx_cc/chainerx/routines/indexing.h` — declarations and
    documented contracts of `Take` and `AddAt`;
  * `src/xchainer/check_backward_test.cc` — the gradient-checker tests,
    including the forward/backward functions they register.
The implementations of the backward engine (`Backward`, `SetUpOpNodes`),
of `CheckBackwardComputation`, of the `Take`/`AddAt` kernels and of
`Backend::GetDevice` are not part of the slice; those are modelled from
the specification, as marked on each definition.
-/

/-- A graph id is an opaque comparable tag identifying one independent
differentiation context; the source uses human-readable strings such as
`"graph_1"`. -/
abbrev GraphId := String

/-- An OpNode records, for one forward op invocation: a diagnostic name,
the id of the output array, the ordered list of input array ids paired
with the backward function of that input (mapping the output gradient to
the input's gradient contribution), and the set of graph ids the node is
active under.  Gradient values have an abstract type `α`. -/
structure OpNode (α : Type) where
  opName : String
  output : Nat
  inputs : List (Nat × (α → α))
  graphIds : List GraphId

/-- Modelled from the spec: `SetUpOpNodes` (recording step of §4.2, the
implementation behind `internal::SetUpOpNodes` is missing from the
slice).  An OpNode is recorded iff at least one input requires gradient
under at least one active graph id; the node's active set is exactly the
set of active graph ids under which some input required gradient.
`req i g` tells whether array `i` requires gradient under graph id `g`. -/
def setUpOpNodes (req : Nat → GraphId → Bool) (activeIds : List GraphId)
    (opName : String) (inputs : List (Nat × (α → α))) (output : Nat) :
    Option (OpNode α) :=
  let ids := activeIds.filter (fun g => inputs.any (fun p => req p.1 g))
  if ids.isEmpty then none else some ⟨opName, output, inputs, ids⟩

/-- Modelled from the spec: the per-node accumulation step of the
backward engine (§4.3).  Given the accumulated output gradient `g` of a
node, each input's backward function is invoked and its result is ADDED
into that input's gradient slot (inputs not requiring gradient are
skipped).  `m` is the gradient map (array id → gradient) for the graph
id being differentiated. -/
def accumInputs [Add α] (req : Nat → Bool) (g : α)
    (ins : List (Nat × (α → α))) (m : Nat → α) : Nat → α :=
  ins.foldl
    (fun acc p =>
      if req p.1 then fun i => if i = p.1 then acc i + p.2 g else acc i
      else acc)
    m

/-- Modelled from the spec: visiting one OpNode during backward
traversal.  A node only responds to gradient requests under graph ids in
its active set; an active node reads its output's accumulated gradient
for `gid` and accumulates into its inputs' slots for `gid` only. -/
def processNode [Add α] (req : Nat → GraphId → Bool) (gid : GraphId)
    (grads : GraphId → Nat → α) (n : OpNode α) : GraphId → Nat → α :=
  if gid ∈ n.graphIds then
    fun g =>
      if g = gid then
        accumInputs (fun i => req i gid) (grads gid n.output) n.inputs (grads gid)
      else grads g
  else grads

/-- Modelled from the spec: seeding the designated output's gradient
slot for `gid` with the initial gradient before traversal. -/
def seedGrad (gid : GraphId) (out : Nat) (seed : α)
    (grads : GraphId → Nat → α) : GraphId → Nat → α :=
  fun g => if g = gid then (fun i => if i = out then seed else grads g i) else grads g

/-- Modelled from the spec: `Backward(output, grad_seed, graph_id)`
(§4.3; the engine implementation is missing from the slice).  `nodes`
lists the OpNodes of the graph reachable from `output` in reverse
topological order (each node before the nodes producing its inputs), so
each node is visited only after all of its consumers have contributed —
the dependency-respecting traversal order of the spec.  The engine seeds
the output's slot for `gid` and folds the per-node accumulation step
over the traversal order. -/
def Backward [Add α] (req : Nat → GraphId → Bool) (nodes : List (OpNode α))
    (output : Nat) (seed : α) (gid : GraphId)
    (grads : GraphId → Nat → α) : GraphId → Nat → α :=
  nodes.foldl (processNode req gid) (seedGrad gid output seed grads)

/-- The all-zero gradient bookkeeping state. -/
def zeroGrads (α : Type) [Zero α] : GraphId → Nat → α := fun _ _ => 0

/-- Requires-gradient everywhere (every array tracked under every graph id). -/
def allReq : Nat → GraphId → Bool := fun _ _ => true

/-- Diamond graph: array 0 feeds two downstream nodes (outputs 1 and 2,
backward functions `fA`, `fB`), whose outputs are combined by a node
with output 3 (backward functions `gA`, `gB`); listed in reverse
topological order, all active under graph id `"g"`. -/
def diamondNodes (fA fB gA gB : α → α) : List (OpNode α) :=
  [⟨"combine", 3, [(1, gA), (2, gB)], ["g"]⟩,
   ⟨"left", 1, [(0, fA)], ["g"]⟩,
   ⟨"right", 2, [(0, fB)], ["g"]⟩]

/-- The left path of the diamond taken alone: 0 → 1 → 3. -/
def pathNodesA (fA gA : α → α) : List (OpNode α) :=
  [⟨"combine", 3, [(1, gA)], ["g"]⟩,
   ⟨"left", 1, [(0, fA)], ["g"]⟩]

/-- The right path of the diamond taken alone: 0 → 2 → 3. -/
def pathNodesB (fB gB : α → α) : List (OpNode α) :=
  [⟨"combine", 3, [(2, gB)], ["g"]⟩,
   ⟨"right", 2, [(0, fB)], ["g"]⟩]

lemma accumInputs_apply [AddCommMonoid α] (req : Nat → Bool) (g : α)
    (ins : List (Nat × (α → α))) (m : Nat → α) (i : Nat) :
    accumInputs req g ins m i =
      m i + ((ins.filter (fun p => p.1 = i && req p.1)).map (fun p => p.2 g)).sum := by
  induction ins generalizing m with
  | nil => simp [accumInputs]
  | cons p rest ih =>
    simp only [accumInputs, List.foldl_cons] at ih ⊢
    rw [ih]
    rcases Bool.eq_false_or_eq_true (req p.1) with hreq | hreq
    case inr => simp [List.filter_cons, hreq]
    case inl =>
      by_cases hi : p.1 = i
      · subst hi
        simp [List.filter_cons, hreq, add_assoc]
      · have hi' : ¬ (i = p.1) := fun h => hi h.symm
        simp [List.filter_cons, hreq, hi, hi']

/-- C1: during backward traversal each input's gradient contribution is
added into the input's slot (accumulate, never overwrite): after
visiting a node, an array's gradient equals its previous value plus the
sum of the backward-function results over all occurrences of that array
among the node's tracked inputs.  Consequently, for a diamond graph in
which array 0 feeds two downstream nodes, the gradient accumulated at
array 0 after `Backward` equals the sum of the contributions computed by
running each downstream path independently. -/
theorem backward_accumulates_and_diamond_sum (α : Type) [AddCommMonoid α] :
    (∀ (req : Nat → Bool) (g : α) (ins : List (Nat × (α → α))) (m : Nat → α) (i : Nat),
        accumInputs req g ins m i =
          m i + ((ins.filter (fun p => p.1 = i && req p.1)).map (fun p => p.2 g)).sum) ∧
    (∀ (fA fB gA gB : α → α) (s : α),
        Backward allReq (pathNodesA fA gA) 3 s "g" (zeroGrads α) "g" 0 = fA (gA s) ∧
        Backward allReq (pathNodesB fB gB) 3 s "g" (zeroGrads α) "g" 0 = fB (gB s) ∧
        Backward allReq (diamondNodes fA fB gA gB) 3 s "g" (zeroGrads α) "g" 0 =
          Backward allReq (pathNodesA fA gA) 3 s "g" (zeroGrads α) "g" 0 +
          Backward allReq (pathNodesB fB gB) 3 s "g" (zeroGrads α) "g" 0) := by
  constructor
  · exact fun req g ins m i => accumInputs_apply req g ins m i
  · intro fA fB gA gB s
    refine ⟨?_, ?_, ?_⟩ <;>
      simp [Backward, processNode, accumInputs, seedGrad, diamondNodes,
        pathNodesA, pathNodesB, zeroGrads, allReq]

lemma processNode_frame [Add α] (req : Nat → GraphId → Bool) (gid : GraphId)
    (grads : GraphId → Nat → α) (n : OpNode α) (g : GraphId) (hg : g ≠ gid) :
    processNode req gid grads n g = grads g := by
  unfold processNode
  by_cases h : gid ∈ n.graphIds <;> simp [h, hg]

lemma foldl_processNode_frame [Add α] (req : Nat → GraphId → Bool) (gid : GraphId)
    (nodes : List (OpNode α)) (grads : GraphId → Nat → α) (g : GraphId) (hg : g ≠ gid) :
    (nodes.foldl (processNode req gid) grads) g = grads g := by
  induction nodes generalizing grads with
  | nil => rfl
  | cons n rest ih => rw [List.foldl_cons, ih, processNode_frame _ _ _ _ _ hg]

/-- C2: a `Backward` call issued under graph id `G2` leaves the gradient
bookkeeping of any other graph id `G1` pointwise unchanged: seeding and
node visits only touch the slots of the requested graph id. -/
theorem backward_graph_isolation [Add α] (req : Nat → GraphId → Bool)
    (nodes : List (OpNode α)) (output : Nat) (seed : α)
    (grads : GraphId → Nat → α) (G1 G2 : GraphId) (h : G1 ≠ G2) (i : Nat) :
    Backward req nodes output seed G2 grads G1 i = grads G1 i := by
  unfold Backward
  rw [foldl_processNode_frame _ _ _ _ _ h]
  simp [seedGrad, h]

/-- Witness for C2 at concrete inputs: a `Backward` call under
`"graph_2"` over a one-node graph leaves the `"graph_1"` slot of array 0
at its prior value 7. -/
theorem backward_graph_isolation_witness :
    ("graph_1" : GraphId) ≠ "graph_2" ∧
    Backward allReq [⟨"n", 1, [(0, fun x => x + 1)], ["graph_2"]⟩] 1 (5 : ℤ)
      "graph_2" (fun _ _ => 7) "graph_1" 0 = 7 :=
  ⟨by decide,
   backward_graph_isolation allReq _ 1 5 (fun _ _ => 7) "graph_1" "graph_2" (by decide) 0⟩

/-- Elementwise sum of two vectors (arrays of rationals model the float
arrays of the tests, in exact arithmetic). -/
def vecAdd (xs ys : List ℚ) : List ℚ := List.zipWith (· + ·) xs ys

/-- Elementwise difference of two vectors. -/
def vecSub (xs ys : List ℚ) : List ℚ := List.zipWith (· - ·) xs ys

/-- Elementwise product of two vectors. -/
def vecMul (xs ys : List ℚ) : List ℚ := List.zipWith (· * ·) xs ys

/-- Modelled from the spec: the central-difference numerical estimate of
the vector-Jacobian product for input `j` (§4.4; the implementation of
the numerical-gradient routine is missing from the slice).  The input is
perturbed along the direction of its matching epsilon array, the forward
function is evaluated at `input + eps` and `input - eps`, and the
symmetric difference quotient is multiplied elementwise by the seeded
output gradient. -/
def numEstimate (fwd : List (List ℚ) → List ℚ) (inputs : List (List ℚ))
    (j : Nat) (epsj : List ℚ) (gout : List ℚ) : List ℚ :=
  let fp := fwd (inputs.set j (vecAdd (inputs.getD j []) epsj))
  let fm := fwd (inputs.set j (vecSub (inputs.getD j []) epsj))
  vecMul gout (List.zipWith (fun d e => d / (2 * e)) (vecSub fp fm) epsj)

/-- Combined-tolerance elementwise comparison of the analytic gradient
against the numerical estimate: every component must satisfy
`|analytic - numerical| ≤ atol + rtol * |numerical|`. -/
def closeB (atol rtol : ℚ) (analytic numerical : List ℚ) : Bool :=
  (analytic.zip numerical).all
    (fun p => decide (|p.1 - p.2| ≤ atol + rtol * |p.2|))

/-- Modelled from the spec: `CheckBackwardComputation` (§4.4; the
implementation is missing from the slice, only its tests are).  The
forward function records a single OpNode whose backward functions are
`bwds`; the backward engine seeded with `gout` therefore yields, for the
tracked input `j`, the analytic gradient `bwds[j] gout` (see
`backward_single_node`).  Each input requiring gradient (`req`) is
compared against its central-difference estimate; inputs not requiring
gradient are skipped.  The result is the list of input indices whose
comparison fails: `[]` means the check passes silently, a nonempty list
is the reported test-style failure naming the mismatching inputs. -/
def CheckBackwardComputation (fwd : List (List ℚ) → List ℚ)
    (bwds : List (List ℚ → List ℚ)) (req : List Bool)
    (inputs : List (List ℚ)) (gout : List ℚ) (eps : List (List ℚ))
    (atol rtol : ℚ) : List Nat :=
  (List.range inputs.length).filter (fun j =>
    req.getD j false &&
    ! closeB atol rtol ((bwds.getD j (fun _ => [])) gout)
        (numEstimate fwd inputs j (eps.getD j []) gout))

/-- For a single recorded OpNode with two inputs, the backward engine
seeded with `s` accumulates exactly the recorded backward function of
each input applied to `s` — this is the analytic gradient the checker
compares. -/
lemma backward_single_node (α : Type) [AddCommMonoid α]
    (nm : String) (gid : GraphId) (b0 b1 : α → α) (s : α) :
    Backward allReq [⟨nm, 2, [(0, b0), (1, b1)], [gid]⟩] 2 s gid (zeroGrads α) gid 0
        = b0 s ∧
    Backward allReq [⟨nm, 2, [(0, b0), (1, b1)], [gid]⟩] 2 s gid (zeroGrads α) gid 1
        = b1 s := by
  constructor <;>
    simp [Backward, processNode, accumInputs, seedGrad, zeroGrads, allReq]

lemma getD_eq_false_of_all_false (reqs : List Bool)
    (h : ∀ b ∈ reqs, b = false) (j : Nat) : reqs[j]?.getD false = false := by
  cases hj : reqs[j]? with
  | none => rfl
  | some b =>
    have hb : b ∈ reqs := by
      have := List.getElem?_eq_some.mp hj
      rcases this with ⟨hlt, hget⟩
      exact hget ▸ List.getElem_mem hlt
    simp [h b hb]

/-- C3: the no-tracking short circuit.  If no input of an op requires
gradient under any active graph id, `setUpOpNodes` attaches no OpNode;
a `Backward` call on an output with no attached node (empty node list)
yields gradient 0 at every array other than the seeded output rather
than an error; `CheckBackwardComputation` trivially passes (returns no
failure) when none of the inputs require gradient; and every failure it
ever reports names an input that requires gradient, so inputs not
requiring gradient are skipped. -/
theorem no_tracking_short_circuit (α : Type) [AddCommMonoid α]
    (req : Nat → GraphId → Bool) (activeIds : List GraphId) (nm : String)
    (ins : List (Nat × (α → α))) (out : Nat) (seed : α) (gid : GraphId) (i : Nat)
    (fwd : List (List ℚ) → List ℚ) (bwds : List (List ℚ → List ℚ))
    (inputs : List (List ℚ)) (gout : List ℚ) (eps : List (List ℚ))
    (atol rtol : ℚ) (reqs reqs2 : List Bool) (j : Nat)
    (h : ∀ p ∈ ins, ∀ g ∈ activeIds, req p.1 g = false)
    (hi : i ≠ out)
    (hreqs : ∀ b ∈ reqs, b = false) :
    setUpOpNodes req activeIds nm ins out = none ∧
    Backward req [] out seed gid (zeroGrads α) gid i = 0 ∧
    CheckBackwardComputation fwd bwds reqs inputs gout eps atol rtol = [] ∧
    (j ∈ CheckBackwardComputation fwd bwds reqs2 inputs gout eps atol rtol →
      reqs2.getD j false = true) := by
  refine ⟨?_, ?_, ?_, ?_⟩
  · unfold setUpOpNodes
    have hfilter : activeIds.filter (fun g => ins.any (fun p => req p.1 g)) = [] := by
      rw [List.filter_eq_nil_iff]
      intro g hg
      simp only [List.any_eq_true]
      rintro ⟨p, hp, hpg⟩
      rw [h p hp g hg] at hpg
      exact Bool.false_ne_true hpg
    simp [hfilter]
  · simp [Backward, seedGrad, zeroGrads, hi]
  · unfold CheckBackwardComputation
    rw [List.filter_eq_nil_iff]
    intro a _
    simp [List.getD_eq_getElem?_getD, getD_eq_false_of_all_false reqs hreqs a]
  · intro hj
    rw [CheckBackwardComputation, List.mem_filter] at hj
    exact (Bool.and_eq_true _ _ |>.mp hj.2).1

/-- Witness for C3 at concrete inputs: an op whose sole input does not
require gradient under the sole active graph id records no node, the
backward call yields zero gradient at array 0, and the checker with no
required input reports no failure. -/
theorem no_tracking_short_circuit_witness :
    ((∀ p ∈ [((0 : Nat), fun (x : ℤ) => x)], ∀ g ∈ ["graph_1"],
        (fun (_ : Nat) (_ : GraphId) => false) p.1 g = false) ∧
      (0 : Nat) ≠ 1 ∧ (∀ b ∈ [false], b = false)) ∧
    (setUpOpNodes (fun _ _ => false) ["graph_1"] "op"
        [((0 : Nat), fun (x : ℤ) => x)] 1 = none ∧
      Backward (fun _ _ => false) [] 1 (5 : ℤ) "graph_1" (zeroGrads ℤ) "graph_1" 0 = 0 ∧
      CheckBackwardComputation (fun xs => xs.getD 0 []) [fun g => g] [false]
        [[1, 2]] [1, 1] [[1, 1]] (1/100000) (1/10000) = [] ∧
      (0 ∈ CheckBackwardComputation (fun xs => xs.getD 0 []) [fun g => g] [true]
          [[1, 2]] [1, 1] [[1, 1]] (1/100000) (1/10000) →
        ([true] : List Bool).getD 0 false = true)) :=
  ⟨⟨by simp, by decide, by simp⟩,
    no_tracking_short_circuit ℤ (fun _ _ => false) ["graph_1"] "op"
      [((0 : Nat), fun (x : ℤ) => x)] 1 5 "graph_1" 0
      (fun xs => xs.getD 0 []) [fun g => g] [[1, 2]] [1, 1] [[1, 1]]
      (1/100000) (1/10000) [false] [true] 0
      (by simp) (by decide) (by simp)⟩

/-- Forward computation of `IncorrectBackwardUnaryFunc` in
`check_backward_test.cc` (lines 32–40): the output copies the input
elementwise (`odata[i] = ldata[i]`), i.e. the identity function. -/
def incorrectUnaryForward (inputs : List (List ℚ)) : List ℚ := inputs.getD 0 []

/-- Backward function recorded by `IncorrectBackwardUnaryFunc`
(line 29): `gout * gout` elementwise. -/
def incorrectUnaryBackward (gout : List ℚ) : List ℚ := vecMul gout gout

/-- Forward function of the `CorrectBackward` unary test (line 168):
`f(x) = x * x` elementwise. -/
def squareForward (inputs : List (List ℚ)) : List ℚ :=
  vecMul (inputs.getD 0 []) (inputs.getD 0 [])

/-- Modelled from the spec: the analytic gradient the backward engine
yields for `f(x) = x * x` (the library multiply op's backward is missing
from the slice): `2x * gout` elementwise. -/
def squareBackward (x gout : List ℚ) : List ℚ :=
  vecMul (x.map (fun v => 2 * v)) gout

/-- Forward computation of `IncorrectBackwardBinaryFunc`
(lines 58–67): elementwise product of the two inputs. -/
def incorrectBinaryForward (inputs : List (List ℚ)) : List ℚ :=
  vecMul (inputs.getD 0 []) (inputs.getD 1 [])

/-- Backward function recorded by `IncorrectBackwardBinaryFunc`
(lines 52–55): `gout + other` elementwise, where `other` is the captured
second operand (both inputs record a copy of the same closure, which
captured `other = rhs`). -/
def incorrectBinaryBackward (other gout : List ℚ) : List ℚ := vecAdd gout other

/-- C7: for `f(x) = x * x` with input `[1, 2, 1]` and seed gradient
`[0, -2, 1]`, the analytic gradient `2x * seed` is `[0, -8, 2]`, it
matches the central-difference estimate with `epsilon = 1e-3` within
the combined tolerance `atol + rtol * |numerical|` at `atol = 1e-5`,
`rtol = 1e-4`, and the checker therefore reports no failure. -/
theorem checker_passes_on_square :
    squareBackward [1, 2, 1] [0, -2, 1] = [0, -8, 2] ∧
    closeB (1/100000) (1/10000) [0, -8, 2]
      (numEstimate squareForward [[1, 2, 1]] 0 [1/1000, 1/1000, 1/1000] [0, -2, 1])
      = true ∧
    CheckBackwardComputation squareForward [squareBackward [1, 2, 1]] [true]
      [[1, 2, 1]] [0, -2, 1] [[1/1000, 1/1000, 1/1000]] (1/100000) (1/10000) = [] := by
  refine ⟨by norm_num [squareBackward, vecMul], ?_, ?_⟩ <;>
    norm_num [CheckBackwardComputation, numEstimate, closeB, squareForward,
      squareBackward, vecAdd, vecSub, vecMul, List.range_succ]

/-- C6 counterexample: the forward computation of
`IncorrectBackwardUnaryFunc` is not the elementwise square — at the
test's input `[-2, 3, 1]` it returns `[-2, 3, 1]` (it copies the input),
not the squares `[4, 9, 1]`. -/
theorem incorrect_unary_forward_is_not_square :
    incorrectUnaryForward [[-2, 3, 1]] = [-2, 3, 1] ∧
    vecMul [-2, 3, 1] [-2, 3, 1] = [4, 9, 1] ∧
    incorrectUnaryForward [[-2, 3, 1]] ≠ vecMul [-2, 3, 1] [-2, 3, 1] := by
  refine ⟨rfl, by norm_num [vecMul], ?_⟩
  norm_num [incorrectUnaryForward, vecMul]

/-- C6 (amended): `IncorrectBackwardUnaryFunc`'s forward is the identity
(so its correct backward would be `gout`); its recorded backward
`gout * gout` is analytically wrong, and on input `[-2, 3, 1]` with seed
gradient `[0, -2, 1]`, `epsilon = 1e-3`, `atol = 1e-5`, `rtol = 1e-4`
the checker reports a mismatch naming input 0, provided the input
requires gradient under the graph id. -/
theorem checker_fails_on_incorrect_unary (r : Bool) (h : r = true) :
    CheckBackwardComputation incorrectUnaryForward [incorrectUnaryBackward] [r]
      [[-2, 3, 1]] [0, -2, 1] [[1/1000, 1/1000, 1/1000]] (1/100000) (1/10000)
      = [0] := by
  subst h
  norm_num [CheckBackwardComputation, numEstimate, closeB, incorrectUnaryForward,
    incorrectUnaryBackward, vecAdd, vecSub, vecMul, List.range_succ]

/-- Witness for C6: instantiating the requires-gradient flag at `true`. -/
theorem checker_fails_on_incorrect_unary_witness :
    (true = true) ∧
    CheckBackwardComputation incorrectUnaryForward [incorrectUnaryBackward] [true]
      [[-2, 3, 1]] [0, -2, 1] [[1/1000, 1/1000, 1/1000]] (1/100000) (1/10000)
      = [0] :=
  ⟨rfl, checker_fails_on_incorrect_unary true rfl⟩

/-- C10: for `IncorrectBackwardBinaryFunc` at the binary test's data
(inputs `[1, -2, 1]` and `[0, 1.4, 2]`, seed `[4, -2, 3]`,
`epsilon = 1e-3`, `atol = 1e-5`, `rtol = 1e-4`), the checker reports a
failure exactly when at least one of the two inputs requires gradient
under the graph id — including when only one of them does — and reports
no failure when neither input requires gradient. -/
theorem checker_fails_on_incorrect_binary (r1 r2 : Bool) :
    CheckBackwardComputation incorrectBinaryForward
      [incorrectBinaryBackward [0, 7/5, 2], incorrectBinaryBackward [0, 7/5, 2]]
      [r1, r2] [[1, -2, 1], [0, 7/5, 2]] [4, -2, 3]
      [[1/1000, 1/1000, 1/1000], [1/1000, 1/1000, 1/1000]]
      (1/100000) (1/10000) = []
    ↔ (r1 = false ∧ r2 = false) := by
  cases r1 <;> cases r2 <;>
    norm_num [CheckBackwardComputation, numEstimate, closeB, incorrectBinaryForward,
      incorrectBinaryBackward, vecAdd, vecSub, vecMul, List.range_succ] <;>
    simp

/-- Dtype kinds of the array library; the indexing contracts only
distinguish the integer kinds (`kInt`, `kUInt`) from the rest. -/
inductive DtypeKind where
  | kBool
  | kInt
  | kUInt
  | kFloat
deriving DecidableEq

/-- Whether a dtype kind is acceptable for an index array: `kInt` or
`kUInt` (contract comments in `indexing.h`). -/
def DtypeKind.isIndexKind : DtypeKind → Bool
  | .kInt => true
  | .kUInt => true
  | _ => false

/-- An array viewed along one axis of interest: dtype kind, number of
dimensions, and the ordered list of its slices along that axis (slices
have an abstract type `σ`; the length of `slices` is the dimension size
along the axis). -/
structure AxisView (σ : Type) where
  kind : DtypeKind
  ndim : Nat
  slices : List σ

/-- An index array: its dtype kind and its flat integer values. -/
structure IndexArray where
  kind : DtypeKind
  values : List Int

/-- Validation errors of the indexing ops. -/
inductive OpError where
  | dtypeError
  | dimensionError
deriving DecidableEq

/-- Out-of-bounds index wrap-around of `Take`: an index `i` selects
position `i mod size` along the axis (mathematical modulus, so negative
indices wrap to the upper end). -/
def wrapIndex (size : Nat) (i : Int) : Nat := (i % (size : Int)).toNat

/-- Modelled from the spec: `Take(a, indices, axis)` (only the
declaration and its contract comments are in `indexing.h`; the kernel is
missing from the slice).  The constraints — `indices` of integer kind,
`axis` within `[0, a.ndim())` — are checked before any data access; on
success, output position `k` holds the slice of `a` along `axis` at
position `indices[k] mod size_along_axis`. -/
def Take [Inhabited σ] (a : AxisView σ) (indices : IndexArray) (axis : Int) :
    Except OpError (List σ) :=
  if ¬ indices.kind.isIndexKind then .error .dtypeError
  else if ¬ (0 ≤ axis ∧ axis < (a.ndim : Int)) then .error .dimensionError
  else .ok (indices.values.map
    (fun i => a.slices.getD (wrapIndex a.slices.length i) default))

/-- One scatter-add pass: each `(destination, slice)` pair adds its
slice into the destination position of the accumulating output. -/
def scatterAdd [Add σ] [Inhabited σ] (out : List σ) (pairs : List (Nat × σ)) :
    List σ :=
  pairs.foldl (fun acc p => acc.set p.1 (acc.getD p.1 default + p.2)) out

/-- Modelled from the spec: `AddAt(a, indices, axis, b)` (only the
declaration and its contract comments are in `indexing.h`; the kernel is
missing from the slice).  The constraints — `indices` of integer kind,
`axis` within `[0, b.ndim())` — are checked before any data access; on
success the output starts as a copy of `a`'s slices and, for every
position of `indices`, the corresponding slice of `b` is added into the
selected output slice (indices wrap like `Take`'s, as `AddAt` is the
scatter dual of `Take`). -/
def AddAt [Add σ] [Inhabited σ] (a : AxisView σ) (indices : IndexArray)
    (axis : Int) (b : AxisView σ) : Except OpError (List σ) :=
  if ¬ indices.kind.isIndexKind then .error .dtypeError
  else if ¬ (0 ≤ axis ∧ axis < (b.ndim : Int)) then .error .dimensionError
  else .ok (scatterAdd a.slices
    ((indices.values.map (wrapIndex a.slices.length)).zip b.slices))

/-- C4: when `indices` has integer kind and `axis` lies in
`[0, a.ndim())`, `Take` raises no error and selects, for every position
of `indices`, the slice of `a` along the axis at position
`index mod size_along_axis`; in particular for size 3 the out-of-range
index `-1` wraps to slice 2 and index `4` wraps to slice 1. -/
theorem take_wraps_indices {σ : Type} [Inhabited σ] (a : AxisView σ)
    (indices : IndexArray) (axis : Int)
    (hk : indices.kind.isIndexKind = true)
    (ha : 0 ≤ axis ∧ axis < (a.ndim : Int)) :
    Take a indices axis = .ok (indices.values.map
      (fun i => a.slices.getD ((i % (a.slices.length : Int)).toNat) default)) ∧
    wrapIndex 3 (-1) = 2 ∧ wrapIndex 3 4 = 1 := by
  refine ⟨?_, by decide, by decide⟩
  simp [Take, hk, ha.1, ha.2, wrapIndex]

/-- Witness for C4: taking from the three slices `[10, 20, 30]` with
indices `[-1, 4, 0]` along axis 0 of a one-dimensional array yields
slices `[30, 20, 10]` — index `-1` wrapped to 2, index `4` to 1. -/
theorem take_wraps_indices_witness :
    ((IndexArray.mk .kInt [-1, 4, 0]).kind.isIndexKind = true ∧
      (0 : Int) ≤ 0 ∧ (0 : Int) < ((1 : Nat) : Int)) ∧
    (Take (AxisView.mk .kFloat 1 [(10 : ℤ), 20, 30])
        (IndexArray.mk .kInt [-1, 4, 0]) 0 =
      .ok ([-1, 4, 0].map
        (fun i => [(10 : ℤ), 20, 30].getD ((i % ((3 : Nat) : Int)).toNat) default)) ∧
      wrapIndex 3 (-1) = 2 ∧ wrapIndex 3 4 = 1) ∧
    Take (AxisView.mk .kFloat 1 [(10 : ℤ), 20, 30])
        (IndexArray.mk .kInt [-1, 4, 0]) 0 = .ok [30, 20, 10] :=
  ⟨⟨rfl, by decide, by decide⟩,
    take_wraps_indices (AxisView.mk .kFloat 1 [(10 : ℤ), 20, 30])
      (IndexArray.mk .kInt [-1, 4, 0]) 0 rfl ⟨by decide, by decide⟩,
    by simp [Take, wrapIndex, DtypeKind.isIndexKind]⟩

lemma scatterAdd_length [Add σ] [Inhabited σ] (pairs : List (Nat × σ))
    (out : List σ) : (scatterAdd out pairs).length = out.length := by
  induction pairs generalizing out with
  | nil => rfl
  | cons p rest ih =>
    simp only [scatterAdd, List.foldl_cons] at ih ⊢
    rw [ih, List.length_set]

lemma scatterAdd_getD [AddCommMonoid σ] [Inhabited σ] (pairs : List (Nat × σ))
    (out : List σ) (j : Nat) (hj : j < out.length) :
    (scatterAdd out pairs).getD j default =
      out.getD j default + ((pairs.filter (fun p => p.1 = j)).map Prod.snd).sum := by
  induction pairs generalizing out with
  | nil => simp [scatterAdd]
  | cons p rest ih =>
    simp only [scatterAdd, List.foldl_cons] at ih ⊢
    rw [ih _ (by rw [List.length_set]; exact hj)]
    by_cases hpj : p.1 = j
    · subst hpj
      rw [List.filter_cons]
      by_cases hplen : p.1 < out.length
      · simp [List.getD_eq_getD_get?, List.getElem?_set_eq_of_lt _ hplen, add_assoc]
      · exact absurd hj hplen
    · rw [List.filter_cons]
      have : (out.set p.1 (out.getD p.1 default + p.2)).getD j default = out.getD j default := by
        simp [List.getD_eq_getD_get?, List.getElem?_set_ne hpj]
      simp [this, hpj]

/-- C5: when the preconditions hold (`indices` of integer kind, `axis`
within `[0, b.ndim())`, each index within the axis size), `AddAt` raises
no error and its output starts as a copy of `a`'s slices: position `j`
holds `a`'s slice `j` plus the sum of all slices of `b` whose index maps
to `j` — repeated indices accumulate (scatter-add), nothing is
overwritten.  In-range indices map to themselves.  The model is a pure
function of `a`, `indices` and `b`, which are left unmodified. -/
theorem addAt_scatter_adds {σ : Type} [AddCommMonoid σ] [Inhabited σ]
    (a : AxisView σ) (indices : IndexArray) (axis : Int) (b : AxisView σ)
    (hk : indices.kind.isIndexKind = true)
    (hax : 0 ≤ axis ∧ axis < (b.ndim : Int))
    (hin : ∀ i ∈ indices.values, 0 ≤ i ∧ i < (a.slices.length : Int)) :
    AddAt a indices axis b =
      .ok (scatterAdd a.slices
        ((indices.values.map (wrapIndex a.slices.length)).zip b.slices)) ∧
    (∀ j, j < a.slices.length →
      (scatterAdd a.slices
          ((indices.values.map (wrapIndex a.slices.length)).zip b.slices)).getD j default =
        a.slices.getD j default +
          ((((indices.values.map (wrapIndex a.slices.length)).zip b.slices).filter
              (fun p => p.1 = j)).map Prod.snd).sum) ∧
    (∀ i ∈ indices.values, wrapIndex a.slices.length i = i.toNat) := by
  refine ⟨?_, ?_, ?_⟩
  · simp [AddAt, hk, hax.1, hax.2]
  · intro j hj
    exact scatterAdd_getD _ _ j hj
  · intro i hi
    rcases hin i hi with ⟨h0, hlt⟩
    unfold wrapIndex
    rw [Int.emod_eq_of_lt h0 hlt]

/-- Witness for C5 at concrete inputs: adding slices `[5, 7, 9]` of `b`
at the repeated indices `[1, 1, 2]` into `a`'s slices `[0, 0, 0]` along
axis 0 accumulates both slices 5 and 7 into destination 1, giving
`[0, 12, 9]` — not the last-write-wins value `[0, 7, 9]`. -/
theorem addAt_scatter_adds_witness :
    ((IndexArray.mk .kUInt [1, 1, 2]).kind.isIndexKind = true ∧
      ((0 : Int) ≤ 0 ∧ (0 : Int) < ((1 : Nat) : Int)) ∧
      (∀ i ∈ [(1 : Int), 1, 2], 0 ≤ i ∧ i < (([(0 : ℤ), 0, 0].length : Nat) : Int))) ∧
    AddAt (AxisView.mk .kFloat 1 [(0 : ℤ), 0, 0]) (IndexArray.mk .kUInt [1, 1, 2]) 0
        (AxisView.mk .kFloat 1 [(5 : ℤ), 7, 9]) =
      .ok (scatterAdd [(0 : ℤ), 0, 0]
        (([(1 : Int), 1, 2].map (wrapIndex [(0 : ℤ), 0, 0].length)).zip [(5 : ℤ), 7, 9])) ∧
    AddAt (AxisView.mk .kFloat 1 [(0 : ℤ), 0, 0]) (IndexArray.mk .kUInt [1, 1, 2]) 0
        (AxisView.mk .kFloat 1 [(5 : ℤ), 7, 9]) = .ok [0, 12, 9] := by
  have h := addAt_scatter_adds (AxisView.mk .kFloat 1 [(0 : ℤ), 0, 0])
    (IndexArray.mk .kUInt [1, 1, 2]) 0 (AxisView.mk .kFloat 1 [(5 : ℤ), 7, 9])
    rfl ⟨by decide, by decide⟩ (by decide)
  exact ⟨⟨rfl, ⟨by decide, by decide⟩, by decide⟩, h.1,
    by simp [AddAt, scatterAdd, wrapIndex, DtypeKind.isIndexKind]⟩

/-- C8: if the index array's dtype is not of integer kind, or the axis
lies outside `[0, ndim)`, `Take` and `AddAt` signal a validation error.
The error is the same whatever data the arrays hold — the constraint
check precedes any data access — and an erroneous call returns only the
error, never a partially-written output. -/
theorem take_addAt_validation_errors {σ : Type} [AddCommMonoid σ] [Inhabited σ]
    (aT a b : AxisView σ) (indices : IndexArray) (axis : Int)
    (hT : indices.kind.isIndexKind = false ∨ ¬ (0 ≤ axis ∧ axis < (aT.ndim : Int)))
    (hA : indices.kind.isIndexKind = false ∨ ¬ (0 ≤ axis ∧ axis < (b.ndim : Int))) :
    (∃ e, ∀ (s : List σ) (vals : List Int),
      Take (AxisView.mk aT.kind aT.ndim s) (IndexArray.mk indices.kind vals) axis
        = .error e) ∧
    (∃ e, ∀ (sa sb : List σ) (vals : List Int),
      AddAt (AxisView.mk a.kind a.ndim sa) (IndexArray.mk indices.kind vals) axis
          (AxisView.mk b.kind b.ndim sb)
        = .error e) := by
  constructor
  · rcases hT with hk | hax
    · exact ⟨.dtypeError, fun s vals => by simp [Take, hk]⟩
    · by_cases hk : indices.kind.isIndexKind = true
      · exact ⟨.dimensionError, fun s vals => by simp [Take, hk, hax]⟩
      · exact ⟨.dtypeError, fun s vals => by
          simp [Take, Bool.eq_false_iff.mpr hk]⟩
  · rcases hA with hk | hax
    · exact ⟨.dtypeError, fun sa sb vals => by simp [AddAt, hk]⟩
    · by_cases hk : indices.kind.isIndexKind = true
      · exact ⟨.dimensionError, fun sa sb vals => by simp [AddAt, hk, hax]⟩
      · exact ⟨.dtypeError, fun sa sb vals => by
          simp [AddAt, Bool.eq_false_iff.mpr hk]⟩

/-- Witness for C8 at concrete inputs: a float-kind index array makes
`Take` fail, and axis 2 outside `[0, 1)` makes `AddAt` fail, whatever
the data. -/
theorem take_addAt_validation_errors_witness :
    (((IndexArray.mk .kFloat [0]).kind.isIndexKind = false ∨
        ¬ ((0 : Int) ≤ 2 ∧ (2 : Int) < ((1 : Nat) : Int))) ∧
      ((IndexArray.mk .kFloat [0]).kind.isIndexKind = false ∨
        ¬ ((0 : Int) ≤ 2 ∧ (2 : Int) < ((1 : Nat) : Int)))) ∧
    ((∃ e, ∀ (s : List ℤ) (vals : List Int),
      Take (AxisView.mk .kFloat 1 s) (IndexArray.mk .kFloat vals) 2 = .error e) ∧
    (∃ e, ∀ (sa sb : List ℤ) (vals : List Int),
      AddAt (AxisView.mk .kFloat 1 sa) (IndexArray.mk .kFloat vals) 2
          (AxisView.mk .kFloat 1 sb) = .error e)) :=
  ⟨⟨Or.inl rfl, Or.inl rfl⟩,
    take_addAt_validation_errors (AxisView.mk .kFloat 1 ([] : List ℤ))
      (AxisView.mk .kFloat 1 ([] : List ℤ)) (AxisView.mk .kFloat 1 ([] : List ℤ))
      (IndexArray.mk .kFloat [0]) 2 (Or.inl rfl) (Or.inl rfl)⟩

/-- The state of a `Backend` (`src/xchainer/backend.h`): the device
count, the backend-supplied factory `CreateDevice`, the memoized
`devices_` slots, and — as instrumentation for the at-most-once claim —
a count of factory invocations per index.  Devices have an abstract
type `δ`. -/
structure BackendState (δ : Type) where
  deviceCount : Nat
  createDevice : Nat → δ
  devices : List (Option δ)
  factoryCalls : Nat → Nat

/-- The backend's range error. -/
inductive DeviceError where
  | outOfRange
deriving DecidableEq

/-- Modelled from the spec: `Backend::GetDevice(index)` (only its
declaration is in `backend.h`; the body is missing from the slice).
Requests with `index >= GetDeviceCount()` fail with an out-of-range
error; otherwise the memoized slot is returned if present, and only an
empty slot invokes the factory `CreateDevice`, storing the new device
for reuse. -/
def GetDevice (s : BackendState δ) (index : Nat) :
    Except DeviceError (δ × BackendState δ) :=
  if s.deviceCount ≤ index then .error .outOfRange
  else
    match s.devices.getD index none with
    | some d => .ok (d, s)
    | none =>
      let d := s.createDevice index
      .ok (d, { s with
        devices := s.devices.set index (some d),
        factoryCalls := fun i => if i = index then s.factoryCalls i + 1 else s.factoryCalls i })

/-- A freshly constructed backend: no devices created yet, factory never
invoked. -/
def freshBackend (δ : Type) (count : Nat) (factory : Nat → δ) : BackendState δ :=
  ⟨count, factory, List.replicate count none, fun _ => 0⟩

/-- The state after one `GetDevice` request (failed requests leave the
state unchanged). -/
def stepGet (s : BackendState δ) (index : Nat) : BackendState δ :=
  match GetDevice s index with
  | .ok (_, s') => s'
  | .error _ => s

/-- The state after a sequence of `GetDevice` requests. -/
def runGets (s : BackendState δ) (reqs : List Nat) : BackendState δ :=
  reqs.foldl stepGet s

/-- The registry invariant: the slot list matches the device count,
the factory ran at most once per index, and an empty slot means the
factory never ran for that index. -/
def BackendInv (s : BackendState δ) : Prop :=
  s.devices.length = s.deviceCount ∧
  ∀ i, s.factoryCalls i ≤ 1 ∧ (s.devices.getD i none = none → s.factoryCalls i = 0)

lemma backendInv_fresh (δ : Type) (count : Nat) (factory : Nat → δ) :
    BackendInv (freshBackend δ count factory) := by
  refine ⟨by simp [freshBackend], fun i => ⟨by simp [freshBackend], fun _ => rfl⟩⟩

lemma stepGet_of_range {δ : Type} (s : BackendState δ) (index : Nat)
    (h : s.deviceCount ≤ index) : stepGet s index = s := by
  simp [stepGet, GetDevice, h]

lemma stepGet_of_some {δ : Type} (s : BackendState δ) (index : Nat) (d : δ)
    (h : ¬ s.deviceCount ≤ index) (hs : s.devices.getD index none = some d) :
    stepGet s index = s := by
  rw [List.getD_eq_getElem?_getD] at hs
  simp [stepGet, GetDevice, h, hs]

lemma stepGet_of_none {δ : Type} (s : BackendState δ) (index : Nat)
    (h : ¬ s.deviceCount ≤ index) (hs : s.devices.getD index none = none) :
    stepGet s index =
      { s with
        devices := s.devices.set index (some (s.createDevice index)),
        factoryCalls := fun i =>
          if i = index then s.factoryCalls i + 1 else s.factoryCalls i } := by
  rw [List.getD_eq_getElem?_getD] at hs
  simp [stepGet, GetDevice, h, hs]

lemma backendInv_step {δ : Type} (s : BackendState δ) (index : Nat)
    (h : BackendInv s) : BackendInv (stepGet s index) := by
  rcases h with ⟨hlen, hcalls⟩
  by_cases hle : s.deviceCount ≤ index
  · rw [stepGet_of_range s index hle]
    exact ⟨hlen, hcalls⟩
  · cases hslot : s.devices.getD index none with
    | some d =>
      rw [stepGet_of_some s index d hle hslot]
      exact ⟨hlen, hcalls⟩
    | none =>
      rw [stepGet_of_none s index hle hslot]
      have hidx : index < s.devices.length := by omega
      refine ⟨by simp [hlen], fun i => ?_⟩
      by_cases hi : i = index
      · subst hi
        constructor
        · simp [(hcalls i).2 hslot]
        · intro hcontra
          rw [List.getD_eq_getD_get?] at hcontra
          simp only [List.get?_eq_getElem?] at hcontra
          rw [List.getElem?_set_eq_of_lt _ hidx] at hcontra
          simp at hcontra
      · constructor
        · simp [hi, (hcalls i).1]
        · intro hnone
          rw [List.getD_eq_getD_get?] at hnone
          simp only [List.get?_eq_getElem?] at hnone
          rw [List.getElem?_set_ne (fun hc => hi hc.symm)] at hnone
          rw [← List.getD_eq_getElem?_getD] at hnone
          simp [hi, (hcalls i).2 hnone]

lemma backendInv_run {δ : Type} (s : BackendState δ) (reqs : List Nat)
    (h : BackendInv s) : BackendInv (runGets s reqs) := by
  induction reqs generalizing s with
  | nil => exact h
  | cons r rest ih =>
    exact ih (stepGet s r) (backendInv_step s r h)

/-- C9: device memoization and range checking.  A successful
`GetDevice(i)` leaves a state from which a second `GetDevice(i)` returns
the identical device and the identical state — so the factory is not
invoked again; starting from a fresh backend, after any sequence of
`GetDevice` requests the factory has been invoked at most once per
index; and any request with `index >= GetDeviceCount()` fails with the
out-of-range error. -/
theorem getDevice_memoized_and_range {δ : Type} (s : BackendState δ)
    (i : Nat) (d : δ) (s' : BackendState δ) (count : Nat) (factory : Nat → δ)
    (reqs : List Nat) (j : Nat) (sr : BackendState δ) (index : Nat)
    (hlen : s.devices.length = s.deviceCount)
    (hok : GetDevice s i = .ok (d, s'))
    (hrange : sr.deviceCount ≤ index) :
    GetDevice s' i = .ok (d, s') ∧
    (runGets (freshBackend δ count factory) reqs).factoryCalls j ≤ 1 ∧
    GetDevice sr index = .error .outOfRange := by
  refine ⟨?_, ((backendInv_run _ reqs (backendInv_fresh δ count factory)).2 j).1,
    by simp [GetDevice, hrange]⟩
  unfold GetDevice at hok ⊢
  by_cases hle : s.deviceCount ≤ i
  · simp [hle] at hok
  · simp only [hle, if_false] at hok
    cases hslot : s.devices.getD i none with
    | some d0 =>
      rw [hslot] at hok
      simp only [Except.ok.injEq, Prod.mk.injEq] at hok
      rcases hok with ⟨hd, hs⟩
      subst hd
      subst hs
      have hslot2 : s.devices[i]?.getD none = some d0 := by
        rw [← List.getD_eq_getElem?_getD]
        exact hslot
      simp [hle, hslot2]
    | none =>
      rw [hslot] at hok
      simp only [Except.ok.injEq, Prod.mk.injEq] at hok
      rcases hok with ⟨hd, hs⟩
      have hidx : i < s.devices.length := by omega
      subst hd
      subst hs
      simp [hle, List.getD_eq_getD_get?, List.getElem?_set_eq_of_lt _ hidx]

/-- Witness for C9 at concrete inputs: on a fresh one-device backend the
first `GetDevice(0)` constructs device 42; the second call returns the
identical device and state; the factory ran at most once; `GetDevice(1)`
is out of range. -/
theorem getDevice_memoized_and_range_witness :
    ((freshBackend ℤ 1 (fun _ => 42)).devices.length
        = (freshBackend ℤ 1 (fun _ => 42)).deviceCount ∧
      GetDevice (freshBackend ℤ 1 (fun _ => 42)) 0
        = .ok (42, stepGet (freshBackend ℤ 1 (fun _ => 42)) 0) ∧
      (freshBackend ℤ 1 (fun _ => 42)).deviceCount ≤ 1) ∧
    (GetDevice (stepGet (freshBackend ℤ 1 (fun _ => 42)) 0) 0
        = .ok (42, stepGet (freshBackend ℤ 1 (fun _ => 42)) 0) ∧
      (runGets (freshBackend ℤ 1 (fun _ => 42)) [0, 0]).factoryCalls 0 ≤ 1 ∧
      GetDevice (freshBackend ℤ 1 (fun _ => 42)) 1 = .error .outOfRange) :=
  ⟨⟨rfl, by simp [GetDevice, freshBackend, stepGet], le_refl 1⟩,
    getDevice_memoized_and_range (freshBackend ℤ 1 (fun _ => 42)) 0 42
      (stepGet (freshBackend ℤ 1 (fun _ => 42)) 0) 1 (fun _ => 42) [0, 0] 0
      (freshBackend ℤ 1 (fun _ => 42)) 1
      rfl (by simp [GetDevice, freshBackend, stepGet]) (le_refl 1)⟩
